import Mathlib

/-!
Verification of the cross-stack dependency-graph validator.

This file is a shallow embedding of the relevant parts of the repository:

* `cf-templates/utilities/validate-config.py` — `ConfigValidator`
  (structure / consistency / uniqueness / naming / cycle checks and
  `validate_all`), embedded over a typed registry model and, for the
  dynamic-shape questions, over a Python-value model `PyVal`.
* `cf-templates/utilities/validate-dependencies.py` —
  `DependencyValidator.detect_circular_dependencies` (pairwise detector).
* `cf-templates/utilities/cross-stack-manager.py` — `CrossStackManager`
  registration and `export_configuration` / `import_configuration`.
* `cf-templates/utilities/validation/validation-orchestrator.py` —
  `ValidationOrchestrator` pass runners and `_create_validation_summary`.

Python dicts are embedded as association lists (`List (String × _)`), with
first-match lookup; Python sets enter only through membership and counting,
which are order-independent, so a deduplicated list stands in for them.
-/

/-- `StackOutput` dataclass of `cross-stack-manager.py` (also the shape of a
well-formed `stack_outputs` entry consumed by `validate-config.py`).
`conditions` defaults to `None`, embedded as `Option`. -/
structure StackOutput where
  name : String
  description : String
  value : String
  export_name : String
  conditions : Option (List String)
  deriving DecidableEq, Repr

/-- `StackDependency` dataclass of `cross-stack-manager.py` (also the shape of
a well-formed `dependencies` entry of `validate-config.py`).
`optional_outputs` defaults to `None`, embedded as `Option`. -/
structure StackDependency where
  stack_name : String
  required_outputs : List String
  optional_outputs : Option (List String)
  deriving DecidableEq, Repr

/-- A Python dict keyed by strings: association list, first-match lookup. -/
abbrev OutMap := List (String × List StackOutput)

abbrev DepMap := List (String × List StackDependency)

/-- First-match association-list lookup (Python `d[k]` / `d.get(k)`). -/
def lookupA {α : Type} : List (String × α) → String → Option α
  | [], _ => none
  | (k, v) :: rest, s => if k = s then some v else lookupA rest s

/-- Python `k in d` for a dict. -/
def memKey {α : Type} (m : List (String × α)) (s : String) : Bool :=
  (lookupA m s).isSome

/-- The non-empty `stack_name` targets of all dependency entries
(`validate-config.py` lines 130–134: `if dep_stack: all_stacks.add(...)`). -/
def dependencyTargets (deps : DepMap) : List String :=
  deps.flatMap (fun kv => kv.2.filterMap (fun d =>
    if d.stack_name = "" then none else some d.stack_name))

/-- The `all_stacks` set of `ConfigValidator.detect_circular_dependencies`:
dependency keys plus every truthy dependency target (deduplicated). -/
def allStacks (deps : DepMap) : List String :=
  (deps.map Prod.fst ++ dependencyTargets deps).dedup

/-- `has_path` of `ConfigValidator.detect_circular_dependencies`
(`validate-config.py` lines 109–126), with explicit fuel.  A `some` result is
the single cycle `path + [end]` appended to `circular_deps` by the probe; the
fuel is only a termination device — `probeStack` supplies enough fuel that it
is never exhausted on a reachable state (see `hasPathF_complete`). -/
def hasPathF (deps : DepMap) : Nat → String → String → List String → List String → Option (List String)
  | 0, _, _, _, _ => none
  | fuel+1, start, e, visited, path =>
    if start = e ∧ path.length > 1 then some (path ++ [e])
    else if start ∈ visited then none
    else
      ((lookupA deps start).getD []).findSome? (fun d =>
        if d.stack_name = "" then none
        else hasPathF deps fuel d.stack_name e (start :: visited) (path ++ [start]))

/-- One probe of the loop `for stack in all_stacks: if stack in dependencies:
has_path(stack, stack, set(), [])` (`validate-config.py` lines 136–138). -/
def probeStack (deps : DepMap) (s : String) : Option (List String) :=
  if memKey deps s then hasPathF deps ((allStacks deps).length + 1) s s [] [] else none

/-- `ConfigValidator.detect_circular_dependencies`: the collected cycle
reports, one per successful probe. -/
def detectCircularDependencies (deps : DepMap) : List (List String) :=
  (allStacks deps).filterMap (probeStack deps)

/-- The dependency edge `a → b` followed by the detector: some dependency
entry of `a` has truthy `stack_name` equal to `b`. -/
def Edge (deps : DepMap) (a b : String) : Prop :=
  b ≠ "" ∧ ∃ l, lookupA deps a = some l ∧ ∃ d ∈ l, d.stack_name = b

/-- A simple dependency cycle through `s` with at least two edges:
`s → v₁ → ⋯ → vₖ → s` with the `vᵢ` pairwise distinct and different
from `s`, `k ≥ 1`. -/
def SimpleCycleThrough (deps : DepMap) (s : String) : Prop :=
  ∃ mid : List String, mid ≠ [] ∧ mid.Nodup ∧ s ∉ mid ∧
    List.Chain' (Edge deps) (s :: (mid ++ [s]))

/-- Char-list prefix test (helper for the Python substring operator `in`). -/
def startsWithL : List Char → List Char → Bool
  | [], _ => true
  | _ :: _, [] => false
  | p :: ps, c :: cs => p = c && startsWithL ps cs

/-- Python substring containment `pat in hay` (helper). -/
def containsSubL (pat : List Char) : List Char → Bool
  | [] => decide (pat = [])
  | c :: cs => startsWithL pat (c :: cs) || containsSubL pat cs

/-- Python `pat in hay` on strings. -/
def strContains (hay pat : String) : Bool :=
  containsSubL pat.toList hay.toList

/-- One structured finding.  Each constructor corresponds to one message
format appended to `self.errors` / `self.warnings` by `ConfigValidator`;
the constructor arguments are the values interpolated into the f-string. -/
inductive Diag where
  /-- warning: export name does not follow the naming convention
  (`validate-config.py` line 67). -/
  | namingWarning (stack outputName exportName : String)
  /-- warning: no output definitions found for the target stack
  (`validate-config.py` line 156). -/
  | noOutputsForTarget (targetStack : String)
  /-- error: required output missing on the target stack
  (`validate-config.py` line 165). -/
  | requiredMissing (stack requiredOutput targetStack : String)
  /-- warning: optional output missing on the target stack
  (`validate-config.py` line 171). -/
  | optionalMissing (stack optionalOutput targetStack : String)
  /-- error: duplicate export name, naming the stack first on record and the
  new offender (`validate-config.py` line 185). -/
  | duplicateExport (exportName stackOnRecord newStack : String)
  /-- error: circular dependency (`validate-config.py` line 253). -/
  | circular (cycle : List String)
  deriving DecidableEq, Repr

/-- A well-formed configuration: the typed shape `validate-config.py` reads
from JSON (both required sections present, all entries dictionary-shaped with
all required fields).  The same two maps are the in-memory state of
`CrossStackManager` (`stack_outputs`, `dependencies`). -/
structure Config where
  stack_outputs : OutMap
  dependencies : DepMap
  deriving DecidableEq, Repr

/-- The naming-convention condition of `validate-config.py` line 66:
a truthy export name lacking either placeholder draws a warning. -/
def namingNonConforming (exportName : String) : Bool :=
  exportName ≠ "" &&
    !(strContains exportName "{ProjectName}" && strContains exportName "{Environment}")

/-- `ConfigValidator.validate_stack_outputs`, restricted to well-typed
outputs: every required field is present and every entry is list/dict shaped,
so none of its `error` branches can fire; what remains is the
naming-convention warning per output and the result `True`. -/
def validateStackOutputs (so : OutMap) : Bool × List Diag :=
  (true, so.flatMap (fun kv => kv.2.filterMap (fun o =>
    if namingNonConforming o.export_name then
      some (Diag.namingWarning kv.1 o.name o.export_name)
    else none)))

/-- `ConfigValidator.validate_dependencies`, restricted to well-typed
dependencies: all required fields present, `required_outputs` a list and
`optional_outputs` absent or a list, so no branch appends anything and the
result is `True`. -/
def validateDependencies (_deps : DepMap) : Bool × List Diag :=
  (true, [])

/-- The errors and warnings `ConfigValidator.validate_output_dependency_consistency`
appends while processing one dependency entry of `stack` (lines 150–171). -/
def consistencyForDep (so : OutMap) (stack : String) (dep : StackDependency) :
    List Diag × List Diag :=
  match lookupA so dep.stack_name with
  | none => ([], [Diag.noOutputsForTarget dep.stack_name])
  | some outs =>
    let defined := outs.map (·.name)
    ((dep.required_outputs.filter (fun n => n ∉ defined)).map
        (fun n => Diag.requiredMissing stack n dep.stack_name),
     ((dep.optional_outputs.getD []).filter (fun n => n ∉ defined)).map
        (fun n => Diag.optionalMissing stack n dep.stack_name))

/-- `ConfigValidator.validate_output_dependency_consistency`
(`validate-config.py` lines 142–173): `(valid, errors, warnings)`.
`valid` is set to `False` exactly when a required-output error is appended. -/
def validateOutputDependencyConsistency (c : Config) : Bool × List Diag × List Diag :=
  let errs := c.dependencies.flatMap (fun kv =>
    kv.2.flatMap (fun d => (consistencyForDep c.stack_outputs kv.1 d).1))
  let warns := c.dependencies.flatMap (fun kv =>
    kv.2.flatMap (fun d => (consistencyForDep c.stack_outputs kv.1 d).2))
  (errs.isEmpty, errs, warns)

/-- The scan order of `validate_export_name_uniqueness`: all
`(stack, output)` pairs, outer loop the `stack_outputs` dict, inner loop the
output list. -/
def exportPairs (so : OutMap) : List (String × StackOutput) :=
  so.flatMap (fun kv => kv.2.map (fun o => (kv.1, o)))

/-- The loop body of `ConfigValidator.validate_export_name_uniqueness`
(lines 180–188): `seen` is the `export_names` first-seen dict, and one
`duplicateExport` error is appended for every pair whose truthy export name
is already on record. -/
def uniqGo : List (String × StackOutput) → List (String × String) → List Diag
  | [], _ => []
  | (stack, o) :: rest, seen =>
    if o.export_name = "" then uniqGo rest seen
    else match lookupA seen o.export_name with
      | some owner => Diag.duplicateExport o.export_name owner stack :: uniqGo rest seen
      | none => uniqGo rest (seen ++ [(o.export_name, stack)])

/-- `ConfigValidator.validate_export_name_uniqueness` (lines 175–190). -/
def validateExportNameUniqueness (so : OutMap) : Bool × List Diag :=
  let errs := uniqGo (exportPairs so) []
  (errs.isEmpty, errs)

/-- The stack owning the first scanned output whose export name is `e`
(the entry the first-seen dict `export_names` records for `e`). -/
def firstOwner (pairs : List (String × StackOutput)) (e : String) : Option String :=
  (pairs.find? (fun p => p.2.export_name = e)).map Prod.fst

/-- How many scanned `(stack, output)` pairs carry export name `e` and owner
stack `s`. -/
def collisionCount (pairs : List (String × StackOutput)) (e s : String) : Nat :=
  (pairs.filter (fun p => p.2.export_name = e ∧ p.1 = s)).length

/-- `ConfigValidator.validate_all` on a well-typed configuration
(lines 228–256): runs every check, accumulating `(valid, errors, warnings)`.
The structure check passes by typing, so no early return occurs. -/
def validateAll (c : Config) : Bool × List Diag × List Diag :=
  let o := validateStackOutputs c.stack_outputs
  let d := validateDependencies c.dependencies
  let cons := validateOutputDependencyConsistency c
  let u := validateExportNameUniqueness c.stack_outputs
  let cyc := detectCircularDependencies c.dependencies
  (o.1 && d.1 && cons.1 && u.1 && cyc.isEmpty,
   cons.2.1 ++ u.2 ++ cyc.map Diag.circular,
   o.2 ++ d.2 ++ cons.2.2)

/-- The `all_stacks` set of `DependencyValidator.detect_circular_dependencies`
(`validate-dependencies.py` lines 149–152): keys plus every `dep['stack_name']`
(no truthiness filter there). -/
def allStacksDep (deps : DepMap) : List String :=
  (deps.map Prod.fst ++ deps.flatMap (fun kv => kv.2.map (·.stack_name))).dedup

/-- `has_path` of `DependencyValidator.detect_circular_dependencies`
(lines 131–146): plain reachability, `start == end` succeeds immediately
(length-0 paths count), with explicit fuel. -/
def hasPathDepF (deps : DepMap) : Nat → String → String → List String → Bool
  | 0, _, _, _ => false
  | fuel+1, start, e, visited =>
    if start = e then true
    else if start ∈ visited then false
    else ((lookupA deps start).getD []).any
      (fun d => hasPathDepF deps fuel d.stack_name e (start :: visited))

/-- The loop body of `DependencyValidator.detect_circular_dependencies`
(lines 154–161): for an ordered pair of distinct mutually reachable stacks,
append the 2-element cycle `[a, b]` unless it or its reverse is already on
the list. -/
def depPairStep (deps : DepMap) (fuel : Nat) (acc : List (List String)) (ab : String × String) :
    List (List String) :=
  if ab.1 ≠ ab.2 ∧ hasPathDepF deps fuel ab.1 ab.2 [] ∧ hasPathDepF deps fuel ab.2 ab.1 [] then
    if [ab.1, ab.2] ∉ acc ∧ [ab.2, ab.1] ∉ acc then acc ++ [[ab.1, ab.2]] else acc
  else acc

/-- `DependencyValidator.detect_circular_dependencies` (lines 126–163):
the pairwise detector over all ordered pairs of stacks. -/
def detectDepPairCycles (deps : DepMap) : List (List String) :=
  let u := allStacksDep deps
  let fuel := u.length + 1
  (u.flatMap (fun a => u.map (fun b => (a, b)))).foldl (depPairStep deps fuel) []

/-- The serialized form of one output written by
`CrossStackManager.export_configuration` (lines 216–225): every field
verbatim; `conditions` may be JSON null. -/
structure SnapOutput where
  name : String
  description : String
  value : String
  export_name : String
  conditions : Option (List String)
  deriving DecidableEq, Repr

/-- The serialized form of one dependency written by
`CrossStackManager.export_configuration` (lines 229–235):
`optional_outputs` is written as `dep.optional_outputs or []`, so the
serialized field is always a list, never null. -/
structure SnapDep where
  stack_name : String
  required_outputs : List String
  optional_outputs : List String
  deriving DecidableEq, Repr

/-- The JSON document produced by `CrossStackManager.export_configuration`. -/
structure Snapshot where
  stack_outputs : List (String × List SnapOutput)
  dependencies : List (String × List SnapDep)
  deriving DecidableEq, Repr

/-- `CrossStackManager.export_configuration` (lines 212–242), minus the file
write: the serializable snapshot of the manager state. -/
def exportConfiguration (r : Config) : Snapshot where
  stack_outputs := r.stack_outputs.map (fun kv =>
    (kv.1, kv.2.map (fun o => ⟨o.name, o.description, o.value, o.export_name, o.conditions⟩)))
  dependencies := r.dependencies.map (fun kv =>
    (kv.1, kv.2.map (fun d => ⟨d.stack_name, d.required_outputs, d.optional_outputs.getD []⟩)))

/-- `CrossStackManager.register_stack_outputs` (lines 41–43): dict assignment,
replacing any prior list for the stack (keeping its position) or appending a
new key. -/
def registerStackOutputs : OutMap → String → List StackOutput → OutMap
  | [], stack, outs => [(stack, outs)]
  | (k, v) :: rest, stack, outs =>
    if k = stack then (k, outs) :: rest
    else (k, v) :: registerStackOutputs rest stack outs

/-- `CrossStackManager.register_dependency` (lines 45–49): append to the
stack's dependency list, creating the key on first use. -/
def registerDependency : DepMap → String → StackDependency → DepMap
  | [], stack, d => [(stack, [d])]
  | (k, v) :: rest, stack, d =>
    if k = stack then (k, v ++ [d]) :: rest
    else (k, v) :: registerDependency rest stack d

/-- `CrossStackManager.import_configuration` (lines 244–270) applied to a
fresh manager (empty maps): rebuild the state through
`register_stack_outputs` / `register_dependency`.  Note
`optional_outputs=dep_data.get('optional_outputs')` always finds the key in
an exported snapshot, so the restored field is `some` of the stored list. -/
def importConfiguration (snap : Snapshot) : Config where
  stack_outputs := snap.stack_outputs.foldl (fun acc kv =>
    registerStackOutputs acc kv.1 (kv.2.map (fun o =>
      ⟨o.name, o.description, o.value, o.export_name, o.conditions⟩))) []
  dependencies := snap.dependencies.foldl (fun acc kv =>
    kv.2.foldl (fun acc2 d =>
      registerDependency acc2 kv.1 ⟨d.stack_name, d.required_outputs, some d.optional_outputs⟩) acc) []

/-- Pass status strings of `validation-orchestrator.py`. -/
inductive PassStatus where
  | PASS
  | FAIL
  | SKIPPED
  | ERROR
  deriving DecidableEq, Repr

/-- Overall status strings of `ValidationSummary.overall_status`. -/
inductive Overall where
  | PASS
  | WARNING
  | FAIL
  deriving DecidableEq, Repr

/-- Issue severities of `cloudformation_validator.ValidationIssue`. -/
inductive Severity where
  | error
  | warning
  | info
  deriving DecidableEq, Repr

/-- `ValidationIssue` dataclass fields used by the orchestrator. -/
structure ValidationIssue where
  severity : Severity
  category : String
  message : String
  deriving DecidableEq, Repr

/-- The dict returned by `ValidationOrchestrator._run_syntax_validation`. -/
structure SyntaxResult where
  status : PassStatus
  is_valid : Bool
  issues : List ValidationIssue
  error_count : Nat
  warning_count : Nat
  info_count : Nat
  deriving DecidableEq, Repr

/-- One `ParameterValidationResult` as used by the orchestrator. -/
structure PResult where
  parameter_name : String
  is_valid : Bool
  errors : List String
  warnings : List String
  deriving DecidableEq, Repr

/-- The dict returned by `ValidationOrchestrator._run_parameter_validation`. -/
structure ParamResult where
  status : PassStatus
  is_valid : Bool
  results : List PResult
  config_errors : List String
  error_count : Nat
  warning_count : Nat
  deriving DecidableEq, Repr

/-- The dict returned by `ValidationOrchestrator._run_well_architected_validation`. -/
structure WaResult where
  status : PassStatus
  is_valid : Bool
  messages : List String
  error_count : Nat
  warning_count : Nat
  info_count : Nat
  deriving DecidableEq, Repr

/-- `ValidationOrchestrator._run_syntax_validation` (lines 78–112).  The
collaborator call `cf_validator.validate_template` is the argument:
`.ok (is_valid, issues)` a normal return, `.error e` a raised exception,
which the `except` branch converts to an `ERROR` result carrying one
synthetic error issue. -/
def runSyntaxValidation (underlying : Except String (Bool × List ValidationIssue)) :
    SyntaxResult :=
  match underlying with
  | .ok (isValid, issues) =>
    { status := if isValid then .PASS else .FAIL
      is_valid := isValid
      issues := issues
      error_count := (issues.filter (fun i => i.severity = .error)).length
      warning_count := (issues.filter (fun i => i.severity = .warning)).length
      info_count := (issues.filter (fun i => i.severity = .info)).length }
  | .error e =>
    { status := .ERROR
      is_valid := false
      issues := [⟨.error, "system", "構文検証中にエラーが発生: " ++ e⟩]
      error_count := 1
      warning_count := 0
      info_count := 0 }

/-- The collaborator outcomes consumed inside the `try` block of
`_run_parameter_validation`: truthiness of the loaded template and
parameters, the two config-error lists, and the per-parameter results. -/
structure ParamUnderlying where
  templateLoaded : Bool
  parametersLoaded : Bool
  schemaErrors : List String
  consistencyErrors : List String
  results : List PResult
  deriving DecidableEq, Repr

/-- `ValidationOrchestrator._run_parameter_validation` (lines 114–182).
`parametersPath = none` short-circuits to `SKIPPED`; a raised exception
(`.error e`) becomes an `ERROR` result with one synthetic config error. -/
def runParameterValidation (parametersPath : Option String) (configPath : Option String)
    (underlying : Except String ParamUnderlying) : ParamResult :=
  match parametersPath with
  | none =>
    { status := .SKIPPED, is_valid := true, results := [], config_errors := []
      error_count := 0, warning_count := 0 }
  | some _ =>
    match underlying with
    | .error e =>
      { status := .ERROR, is_valid := false, results := []
        config_errors := ["パラメータ検証中にエラーが発生: " ++ e]
        error_count := 1, warning_count := 0 }
    | .ok u =>
      if !u.templateLoaded then
        { status := .ERROR, is_valid := false, results := []
          config_errors := ["テンプレートの読み込みに失敗"]
          error_count := 1, warning_count := 0 }
      else if !u.parametersLoaded then
        { status := .ERROR, is_valid := false, results := []
          config_errors := ["パラメータファイルの読み込みに失敗"]
          error_count := 1, warning_count := 0 }
      else
        let configErrors :=
          (if configPath.isSome then u.schemaErrors else []) ++ u.consistencyErrors
        let hasErrors := u.results.any (fun r => !r.is_valid) || !configErrors.isEmpty
        { status := if hasErrors then .FAIL else .PASS
          is_valid := !hasErrors
          results := u.results
          config_errors := configErrors
          error_count := (u.results.filter (fun r => !r.is_valid)).length + configErrors.length
          warning_count := (u.results.map (fun r => r.warnings.length)).sum }

/-- `ValidationOrchestrator._run_well_architected_validation` (lines 184–210),
with the collaborator call `wa_validator.validate_cloudformation_template` as
the argument. -/
def runWellArchitectedValidation (underlying : Except String (Bool × List String)) :
    WaResult :=
  match underlying with
  | .ok (isValid, messages) =>
    { status := if isValid then .PASS else .FAIL
      is_valid := isValid
      messages := messages
      error_count := (messages.filter (fun m => m.startsWith "Error")).length
      warning_count := (messages.filter (fun m => m.startsWith "Warning")).length
      info_count := (messages.filter (fun m => m.startsWith "✓")).length }
  | .error e =>
    { status := .ERROR
      is_valid := false
      messages := ["Well-Architected検証中にエラーが発生: " ++ e]
      error_count := 1
      warning_count := 0
      info_count := 0 }

/-- `ValidationSummary` dataclass (the fields the aggregation computes). -/
structure ValidationSummary where
  overall_status : Overall
  syntax_validation : SyntaxResult
  parameter_validation : ParamResult
  well_architected_validation : WaResult
  total_issues : Nat
  errors : Nat
  warnings : Nat
  infos : Nat
  deriving DecidableEq, Repr

/-- `ValidationOrchestrator._create_validation_summary` (lines 212–269):
`FAIL` if any pass is invalid, else `WARNING` if any pass counted a warning,
else `PASS`; totals sum the per-pass counters (the parameter pass has no
`info_count` key, so `.get(..., 0)` contributes zero there). -/
def createValidationSummary (syntaxResults : SyntaxResult) (parameterResults : ParamResult)
    (waResults : WaResult) : ValidationSummary :=
  let allValid := syntaxResults.is_valid && parameterResults.is_valid && waResults.is_valid
  let hasWarnings := syntaxResults.warning_count > 0 || parameterResults.warning_count > 0 ||
    waResults.warning_count > 0
  let totalErrors := syntaxResults.error_count + parameterResults.error_count +
    waResults.error_count
  let totalWarnings := syntaxResults.warning_count + parameterResults.warning_count +
    waResults.warning_count
  let totalInfos := syntaxResults.info_count + waResults.info_count
  { overall_status := if allValid then (if hasWarnings then .WARNING else .PASS) else .FAIL
    syntax_validation := syntaxResults
    parameter_validation := parameterResults
    well_architected_validation := waResults
    total_issues := totalErrors + totalWarnings + totalInfos
    errors := totalErrors
    warnings := totalWarnings
    infos := totalInfos }

/-- `ValidationOrchestrator.run_comprehensive_validation` (lines 50–76): run
the three passes in order and aggregate. -/
def runComprehensiveValidation (syntaxUnderlying : Except String (Bool × List ValidationIssue))
    (parametersPath configPath : Option String)
    (paramUnderlying : Except String ParamUnderlying)
    (waUnderlying : Except String (Bool × List String)) : ValidationSummary :=
  createValidationSummary (runSyntaxValidation syntaxUnderlying)
    (runParameterValidation parametersPath configPath paramUnderlying)
    (runWellArchitectedValidation waUnderlying)

/-- A parsed Python/JSON value, for the dynamic (untyped) behaviour of
`validate-config.py` on malformed-but-parseable configurations. -/
inductive PyVal where
  | pnone
  | pbool (b : Bool)
  | pint (n : Int)
  | pstr (s : String)
  | plist (l : List PyVal)
  | pdict (kvs : List (String × PyVal))

/-- A raised Python exception. -/
inductive PyErr where
  | typeError (msg : String)
  | attributeError (attr : String)
  | keyError
  deriving DecidableEq, Repr

/-- Python truthiness. -/
def pyTruthy : PyVal → Bool
  | .pnone => false
  | .pbool b => b
  | .pint n => n ≠ 0
  | .pstr s => s ≠ ""
  | .plist l => !l.isEmpty
  | .pdict kvs => !kvs.isEmpty

/-- `isinstance(v, list)`. -/
def isList : PyVal → Bool
  | .plist _ => true
  | _ => false

/-- Hashability: lists and dicts cannot enter sets or be looked up as keys. -/
def pyHashable : PyVal → Bool
  | .plist _ => false
  | .pdict _ => false
  | _ => true

/-- Python `==` on hashable (scalar) values, including the bool/int
identification; composite values never reach an equality test in the
modelled code because hashability is checked first. -/
def pyEqScalar : PyVal → PyVal → Bool
  | .pnone, .pnone => true
  | .pstr a, .pstr b => a = b
  | .pint a, .pint b => a = b
  | .pbool a, .pbool b => a = b
  | .pbool a, .pint b => (if a then (1 : Int) else 0) = b
  | .pint a, .pbool b => a = (if b then (1 : Int) else 0)
  | _, _ => false

/-- Dict lookup with an arbitrary (hashable) key against string keys. -/
def pyDictLookup (kvs : List (String × PyVal)) (k : PyVal) : Option PyVal :=
  (kvs.find? (fun kv => pyEqScalar (.pstr kv.1) k)).map (fun kv => kv.2)

/-- `d.items()` — raises `AttributeError` on anything but a dict. -/
def pyItems : PyVal → Except PyErr (List (String × PyVal))
  | .pdict kvs => .ok kvs
  | _ => .error (.attributeError "items")

/-- `d.get(k, default)` with a string-literal key. -/
def pyGetDefault : PyVal → String → PyVal → Except PyErr PyVal
  | .pdict kvs, k, dfl => .ok ((lookupA kvs k).getD dfl)
  | _, _, _ => .error (.attributeError "get")

/-- `d.get(k)` (default `None`). -/
def pyGet (v : PyVal) (k : String) : Except PyErr PyVal :=
  pyGetDefault v k .pnone

/-- `d[k]` with an arbitrary key — `TypeError` when `d` is not a dict or the
key unhashable, `KeyError` when absent. -/
def pySubscriptV : PyVal → PyVal → Except PyErr PyVal
  | .pdict kvs, k =>
    if pyHashable k then
      match pyDictLookup kvs k with
      | some v => .ok v
      | none => .error .keyError
    else .error (.typeError "unhashable type")
  | _, _ => .error (.typeError "object is not subscriptable")

/-- `d[k]` with a string-literal key. -/
def pySubscriptS (v : PyVal) (k : String) : Except PyErr PyVal :=
  pySubscriptV v (.pstr k)

/-- `k in d` on a dict — `TypeError` for an unhashable probe. -/
def pyInDict : PyVal → PyVal → Except PyErr Bool
  | k, .pdict kvs =>
    if pyHashable k then .ok (pyDictLookup kvs k).isSome
    else .error (.typeError "unhashable type")
  | _, _ => .error (.typeError "argument is not a container")

/-- `k in s` on a constructed set of hashable values. -/
def pyInSet (k : PyVal) (s : List PyVal) : Except PyErr Bool :=
  if pyHashable k then .ok (s.any (pyEqScalar k)) else .error (.typeError "unhashable type")

/-- `for x in v` — the iterated elements, `TypeError` on non-iterables
(`None`, numbers, booleans); strings iterate their characters, dicts their
keys. -/
def pyIter : PyVal → Except PyErr (List PyVal)
  | .plist l => .ok l
  | .pstr s => .ok (s.toList.map (fun c => .pstr (String.singleton c)))
  | .pdict kvs => .ok (kvs.map (fun kv => .pstr kv.1))
  | .pnone => .error (.typeError "NoneType object is not iterable")
  | .pbool _ => .error (.typeError "bool object is not iterable")
  | .pint _ => .error (.typeError "int object is not iterable")

/-- A dynamic finding: one constructor per f-string family of
`validate-config.py`, carrying the interpolated values. -/
inductive DiagDyn where
  | depsNotList (stack : String)
  | depNotDict (stack : String) (idx : Nat)
  | missingDepField (stack : String) (idx : Nat) (field : String)
  | requiredOutputsNotList (stack : String) (idx : Nat)
  | optionalOutputsNotList (stack : String) (idx : Nat)
  | noOutputsForTargetD (target : PyVal)
  | requiredMissingD (stack : String) (name : PyVal) (target : PyVal)
  | optionalMissingD (stack : String) (name : PyVal) (target : PyVal)

/-- The checks `ConfigValidator.validate_dependencies` performs on one
dependency entry (`validate-config.py` lines 81–101): required fields,
list-shaped `required_outputs`, and list-shaped-or-`None`
`optional_outputs`. -/
def checkDepEntry (stack : String) (i : Nat) (dep : PyVal) : Bool × List DiagDyn :=
  match dep with
  | .pdict kvs =>
    let m1 := if memKey kvs "stack_name" then [] else [DiagDyn.missingDepField stack i "stack_name"]
    let m2 := if memKey kvs "required_outputs" then [] else
      [DiagDyn.missingDepField stack i "required_outputs"]
    let reqBad := match lookupA kvs "required_outputs" with
      | some v => if isList v then [] else [DiagDyn.requiredOutputsNotList stack i]
      | none => []
    let optBad := match lookupA kvs "optional_outputs" with
      | some .pnone => []
      | some v => if isList v then [] else [DiagDyn.optionalOutputsNotList stack i]
      | none => []
    let errs := m1 ++ m2 ++ reqBad ++ optBad
    (errs.isEmpty, errs)
  | _ => (false, [DiagDyn.depNotDict stack i])

/-- `ConfigValidator.validate_dependencies` (lines 71–103) on a dynamic
value: every anomaly inside a dict-of-lists shape becomes a finding; only a
non-dict `dependencies` raises (at `.items()`). -/
def validateDependenciesDyn (dependencies : PyVal) : Except PyErr (Bool × List DiagDyn) := do
  let entries ← pyItems dependencies
  .ok (entries.foldl (fun acc kv =>
    match kv.2 with
    | .plist deps =>
      deps.enum.foldl (fun acc2 p =>
        let r := checkDepEntry kv.1 p.1 p.2
        (acc2.1 && r.1, acc2.2 ++ r.2)) acc
    | _ => (false, acc.2 ++ [DiagDyn.depsNotList kv.1])) (true, []))

/-- Accumulator of `validate_output_dependency_consistency`: the `valid`
flag and the two shared lists. -/
structure ConsState where
  valid : Bool
  errors : List DiagDyn
  warnings : List DiagDyn

/-- The body of `validate_output_dependency_consistency` for one dependency
entry (lines 150–171), on dynamic values, with every Python runtime error
made explicit. -/
def consistencyStepDyn (stackOutputs : PyVal) (stack : String) (st : ConsState) (dep : PyVal) :
    Except PyErr ConsState := do
  let depStackName ← pyGet dep "stack_name"
  let requiredOutputs ← pyGetDefault dep "required_outputs" (.plist [])
  let optionalOutputs ← pyGetDefault dep "optional_outputs" (.plist [])
  let isIn ← pyInDict depStackName stackOutputs
  if !isIn then
    .ok ⟨st.valid, st.errors, st.warnings ++ [DiagDyn.noOutputsForTargetD depStackName]⟩
  else do
    let outsVal ← pySubscriptV stackOutputs depStackName
    let outs ← pyIter outsVal
    let names ← outs.mapM (fun o => pySubscriptS o "name")
    let _ ← if names.all pyHashable then pure () else
      Except.error (PyErr.typeError "unhashable type")
    let reqs ← pyIter requiredOutputs
    let st2 ← reqs.foldlM (fun (a : ConsState) r => do
      let mem ← pyInSet r names
      if mem then .ok a
      else .ok ⟨false, a.errors ++ [DiagDyn.requiredMissingD stack r depStackName], a.warnings⟩) st
    let opts ← pyIter optionalOutputs
    opts.foldlM (fun (a : ConsState) o => do
      let mem ← pyInSet o names
      if mem then .ok a
      else .ok ⟨a.valid, a.errors, a.warnings ++ [DiagDyn.optionalMissingD stack o depStackName]⟩) st2

/-- `ConfigValidator.validate_output_dependency_consistency`
(lines 142–173) on a dynamic configuration value. -/
def validateOutputDependencyConsistencyDyn (config : PyVal) :
    Except PyErr (Bool × List DiagDyn × List DiagDyn) := do
  let stackOutputs ← pyGetDefault config "stack_outputs" (.pdict [])
  let dependencies ← pyGetDefault config "dependencies" (.pdict [])
  let entries ← pyItems dependencies
  let st ← entries.foldlM (fun (a : ConsState) kv => do
    let deps ← pyIter kv.2
    deps.foldlM (consistencyStepDyn stackOutputs kv.1) a) ⟨true, [], []⟩
  .ok (st.valid, st.errors, st.warnings)

/-- The `dependencies` section of the C8 failing input: one dependency of
`A` on `B` whose `optional_outputs` key is present but `null` — the shape
`validate_dependencies` explicitly tolerates (line 99). -/
def c8Dependencies : PyVal :=
  .pdict [("A", .plist [.pdict [("stack_name", .pstr "B"),
    ("required_outputs", .plist []), ("optional_outputs", .pnone)]])]

/-- The full C8 failing configuration: `B` registered with an empty output
list, so the consistency check reaches the `optional_outputs` iteration. -/
def c8FailingConfig : PyVal :=
  .pdict [("stack_outputs", .pdict [("B", .plist [])]), ("dependencies", c8Dependencies)]

/-- Three stacks whose outputs resolve to the same export name (the C4
witness registry). -/
def c4WitnessRegistry : OutMap :=
  [("S1", [⟨"VPCId", "d", "v", "proj-dev-VPC-ID", none⟩]),
   ("S2", [⟨"VPCId", "d", "v", "proj-dev-VPC-ID", none⟩]),
   ("S3", [⟨"VPCId", "d", "v", "proj-dev-VPC-ID", none⟩])]

/-- A passing syntax-pass result with two warnings (C6 witness input). -/
def c6SyntaxExample : SyntaxResult := ⟨.PASS, true, [], 0, 2, 0⟩

/-- A skipped parameter-pass result (C6 witness input). -/
def c6ParamExample : ParamResult := ⟨.SKIPPED, true, [], [], 0, 0⟩

/-- A clean passing compliance-pass result (C6 witness input). -/
def c6WaExample : WaResult := ⟨.PASS, true, [], 0, 0, 0⟩

/-- A registry with every `optional_outputs` set (C7 witness input). -/
def c7WitnessRegistry : Config :=
  ⟨[("vpc", [⟨"VPCId", "VPC ID", "!Ref VPC", "{ProjectName}-{Environment}-VPC-ID", none⟩])],
   [("ec2", [⟨"vpc", ["VPCId"], some ["PublicSubnets"]⟩])]⟩

/-- A valid configuration: `A` depends on output `X` of `B` (C10 base). -/
def c10BaseConfig : Config :=
  ⟨[("B", [⟨"X", "desc", "val", "E", none⟩])], [("A", [⟨"B", ["X"], none⟩])]⟩

/-- A second output reusing the name `X` (and export name `E`) of the output
already registered on `B`. -/
def c10AddedOutput : StackOutput := ⟨"X", "desc2", "val2", "E", none⟩

/-- `c10BaseConfig` with the duplicate-named output appended to `B`. -/
def c10DupConfig : Config :=
  ⟨[("B", [⟨"X", "desc", "val", "E", none⟩, c10AddedOutput])], [("A", [⟨"B", ["X"], none⟩])]⟩

lemma lookupA_eq_some_mem {α : Type} {m : List (String × α)} {s : String} {v : α}
    (h : lookupA m s = some v) : (s, v) ∈ m := by
  induction m with
  | nil => simp [lookupA] at h
  | cons kv rest ih =>
    obtain ⟨k, w⟩ := kv
    by_cases hk : k = s
    · subst hk
      simp [lookupA] at h
      simp [h]
    · simp [lookupA, hk] at h
      exact List.mem_cons_of_mem _ (ih h)

lemma mem_keys_of_lookupA_isSome {α : Type} {m : List (String × α)} {s : String}
    (h : (lookupA m s).isSome) : s ∈ m.map Prod.fst := by
  induction m with
  | nil => simp [lookupA] at h
  | cons kv rest ih =>
    obtain ⟨k, w⟩ := kv
    by_cases hk : k = s
    · subst hk; simp
    · simp [lookupA, hk] at h
      simp only [List.map_cons, List.mem_cons]
      exact Or.inr (ih h)

lemma Edge.src_lookup {deps : DepMap} {a b : String} (h : Edge deps a b) :
    (lookupA deps a).isSome := by
  obtain ⟨-, l, hl, -⟩ := h
  simp [hl]

lemma Edge.src_mem_allStacks {deps : DepMap} {a b : String} (h : Edge deps a b) :
    a ∈ allStacks deps := by
  have := mem_keys_of_lookupA_isSome (Edge.src_lookup h)
  simp only [allStacks, List.mem_dedup, List.mem_append]
  exact Or.inl this

lemma Edge.target_mem_allStacks {deps : DepMap} {a b : String} (h : Edge deps a b) :
    b ∈ allStacks deps := by
  obtain ⟨hb, l, hl, d, hd, hname⟩ := h
  simp only [allStacks, List.mem_dedup, List.mem_append]
  refine Or.inr ?_
  simp only [dependencyTargets, List.mem_flatMap]
  refine ⟨(a, l), lookupA_eq_some_mem hl, ?_⟩
  simp only [List.mem_filterMap]
  refine ⟨d, hd, ?_⟩
  rw [hname]
  simp [hb]

lemma chain'_cons_exists_pred {R : String → String → Prop} :
    ∀ {l : List String} {a : String}, List.Chain' R (a :: l) → ∀ x ∈ l, ∃ y, R y x := by
  intro l
  induction l with
  | nil => intro a _ x hx; simp at hx
  | cons b t ih =>
    intro a hch x hx
    rw [List.chain'_cons] at hch
    rcases List.mem_cons.mp hx with rfl | hx
    · exact ⟨a, hch.1⟩
    · exact ih hch.2 x hx

/-- Soundness of one probe: a returned value is a simple cycle through the
search target `e`, with at least two edges. -/
lemma hasPathF_sound {deps : DepMap} :
    ∀ (fuel : Nat) (start e : String) (visited path c : List String),
      hasPathF deps fuel start e visited path = some c →
      List.Chain' (Edge deps) (path ++ [start]) →
      path.Nodup →
      (∀ x ∈ path, x ∈ visited) →
      (path.head? = some e ∨ (path = [] ∧ start = e)) →
      ∃ mid, c = e :: (mid ++ [e]) ∧ mid ≠ [] ∧ mid.Nodup ∧ e ∉ mid ∧
        List.Chain' (Edge deps) (e :: (mid ++ [e])) := by
  intro fuel
  induction fuel with
  | zero => intro start e visited path c h; simp [hasPathF] at h
  | succ f ih =>
    intro start e visited path c h hch hnd hvis hhd
    rw [hasPathF] at h
    by_cases hsucc : start = e ∧ path.length > 1
    · rw [if_pos hsucc] at h
      obtain ⟨hse, hlen⟩ := hsucc
      rw [hse] at hch
      cases path with
      | nil => simp at hlen
      | cons p0 rest =>
        cases rest with
        | nil => simp at hlen
        | cons p1 rest' =>
          have hp0 : p0 = e := by
            rcases hhd with hhd | ⟨habs, -⟩
            · simpa using hhd
            · simp at habs
          rw [hp0] at h hch hnd
          refine ⟨p1 :: rest', by simpa using h.symm, by simp,
            (List.nodup_cons.mp hnd).2, (List.nodup_cons.mp hnd).1, by simpa using hch⟩
    · rw [if_neg hsucc] at h
      by_cases hvisd : start ∈ visited
      · rw [if_pos hvisd] at h; simp at h
      · rw [if_neg hvisd] at h
        obtain ⟨d, hdmem, hd⟩ := List.exists_of_findSome?_eq_some h
        by_cases hemp : d.stack_name = ""
        · rw [if_pos hemp] at hd; simp at hd
        · rw [if_neg hemp] at hd
          have hlook : ∃ l, lookupA deps start = some l ∧ d ∈ l := by
            cases hl : lookupA deps start with
            | none => rw [hl] at hdmem; simp at hdmem
            | some l => rw [hl] at hdmem; exact ⟨l, rfl, by simpa using hdmem⟩
          obtain ⟨l, hl, hdl⟩ := hlook
          have hedge : Edge deps start d.stack_name := ⟨hemp, l, hl, d, hdl, rfl⟩
          have hstart_not : start ∉ path := fun hmem => hvisd (hvis start hmem)
          refine ih d.stack_name e (start :: visited) (path ++ [start]) c hd ?_ ?_ ?_ ?_
          · rw [List.chain'_append]
            refine ⟨hch, List.chain'_singleton _, ?_⟩
            intro x hx y hy
            simp only [List.getLast?_append, List.getLast?_singleton, Option.or_some,
              Option.mem_def, Option.some_inj] at hx
            simp only [List.head?_cons, Option.mem_def, Option.some_inj] at hy
            subst hx; subst hy
            exact hedge
          · rw [List.nodup_append]
            refine ⟨hnd, List.nodup_singleton _, ?_⟩
            intro x hx hx2
            have hxs : x = start := by simpa using hx2
            exact hstart_not (hxs ▸ hx)
          · intro x hx
            rcases List.mem_append.mp hx with h1 | h1
            · exact List.mem_cons_of_mem _ (hvis x h1)
            · have hxs : x = start := by simpa using h1
              subst hxs
              exact List.mem_cons_self _ _
          · left
            cases path with
            | nil =>
              rcases hhd with hhd | ⟨-, rfl⟩
              · simp at hhd
              · simp
            | cons q qs =>
              rcases hhd with hhd | ⟨habs, -⟩
              · simpa using hhd
              · simp at habs

/-- Completeness of one probe: given enough fuel, the search succeeds along
any simple path of outgoing edges reaching the target. -/
lemma hasPathF_complete {deps : DepMap} :
    ∀ (mid : List String) (fuel : Nat) (start e : String) (visited path : List String),
      mid.length + 2 ≤ fuel →
      List.Chain' (Edge deps) (start :: (mid ++ [e])) →
      (start :: mid).Nodup →
      (∀ x ∈ start :: mid, x ∉ visited) →
      1 ≤ path.length + mid.length →
      (hasPathF deps fuel start e visited path).isSome = true := by
  intro mid
  induction mid with
  | nil =>
    intro fuel start e visited path hfuel hch hnd hvis hlen
    simp only [List.length_nil] at hfuel
    simp only [List.length_nil, Nat.add_zero] at hlen
    cases fuel with
    | zero => omega
    | succ f =>
      rw [hasPathF]
      by_cases hsucc : start = e ∧ path.length > 1
      · rw [if_pos hsucc]; simp
      · rw [if_neg hsucc]
        have hnv : start ∉ visited := hvis start (by simp)
        rw [if_neg hnv]
        have hedge : Edge deps start e := (List.chain'_cons.mp hch).1
        obtain ⟨hne, l, hl, d, hdl, hdname⟩ := hedge
        rw [List.findSome?_isSome_iff]
        refine ⟨d, by rw [hl]; simpa using hdl, ?_⟩
        rw [if_neg (by rw [hdname]; exact hne), hdname]
        cases f with
        | zero => omega
        | succ g =>
          rw [hasPathF]
          rw [if_pos ⟨rfl, by simp only [List.length_append, List.length_cons,
            List.length_nil]; omega⟩]
          simp
  | cons v mid' ih =>
    intro fuel start e visited path hfuel hch hnd hvis hlen
    simp only [List.length_cons] at hfuel
    cases fuel with
    | zero => omega
    | succ f =>
      rw [hasPathF]
      by_cases hsucc : start = e ∧ path.length > 1
      · rw [if_pos hsucc]; simp
      · rw [if_neg hsucc]
        have hnv : start ∉ visited := hvis start (by simp)
        rw [if_neg hnv]
        have hsplit := List.chain'_cons.mp hch
        have hedge : Edge deps start v := hsplit.1
        obtain ⟨hne, l, hl, d, hdl, hdname⟩ := hedge
        rw [List.findSome?_isSome_iff]
        refine ⟨d, by rw [hl]; simpa using hdl, ?_⟩
        rw [if_neg (by rw [hdname]; exact hne), hdname]
        apply ih f v e (start :: visited) (path ++ [start])
        · omega
        · exact hsplit.2
        · exact (List.nodup_cons.mp hnd).2
        · intro x hx
          simp only [List.mem_cons, not_or]
          refine ⟨fun heq => (List.nodup_cons.mp hnd).1 (heq ▸ hx), ?_⟩
          exact hvis x (List.mem_cons_of_mem _ hx)
        · simp only [List.length_append, List.length_cons, List.length_nil]
          omega

/-- A successful probe at `s` yields a report starting at `s` and certifies
a simple cycle through `s`. -/
lemma probeStack_sound {deps : DepMap} {s : String} {c : List String}
    (h : probeStack deps s = some c) :
    c.head? = some s ∧ SimpleCycleThrough deps s := by
  rw [probeStack] at h
  by_cases hm : memKey deps s
  · rw [if_pos hm] at h
    obtain ⟨mid, hc, hne, hnd, hns, hch⟩ :=
      hasPathF_sound ((allStacks deps).length + 1) s s [] [] c h
        (List.chain'_singleton s) List.nodup_nil (by simp) (Or.inr ⟨rfl, rfl⟩)
    exact ⟨by rw [hc]; rfl, ⟨mid, hne, hnd, hns, hch⟩⟩
  · rw [if_neg hm] at h; simp at h

/-- Any simple cycle through `s` makes the probe at `s` succeed: the fuel
budget `|allStacks| + 1` covers the cycle, whose stacks all lie in
`allStacks`. -/
lemma probeStack_isSome_of_cycle {deps : DepMap} {s : String}
    (h : SimpleCycleThrough deps s) : (probeStack deps s).isSome = true := by
  obtain ⟨mid, hne, hnd, hns, hch⟩ := h
  cases mid with
  | nil => exact absurd rfl hne
  | cons v mid' =>
    have hedge : Edge deps s v := (List.chain'_cons.mp hch).1
    have hmem : memKey deps s := by
      simpa [memKey] using Edge.src_lookup hedge
    rw [probeStack, if_pos hmem]
    have hsub : (s :: v :: mid') ⊆ allStacks deps := by
      intro x hx
      rcases List.mem_cons.mp hx with rfl | hx
      · exact Edge.src_mem_allStacks hedge
      · obtain ⟨y, hy⟩ := chain'_cons_exists_pred hch x (List.mem_append_left _ hx)
        exact Edge.target_mem_allStacks hy
    have hnodup : (s :: v :: mid').Nodup := List.nodup_cons.mpr ⟨hns, hnd⟩
    have hlen : (v :: mid').length + 1 ≤ (allStacks deps).length := by
      have := (List.subperm_of_subset hnodup hsub).length_le
      simpa using this
    apply hasPathF_complete (v :: mid') _ s s [] []
    · simp at hlen ⊢; omega
    · exact hch
    · exact hnodup
    · simp
    · simp

/-- Characterization of the config-validator cycle detector: it reports a
cycle starting at `s` precisely when a simple dependency cycle with at
least two edges passes through `s`. -/
lemma detect_reports_iff (deps : DepMap) (s : String) :
    (∃ c ∈ detectCircularDependencies deps, c.head? = some s) ↔ SimpleCycleThrough deps s := by
  constructor
  · rintro ⟨c, hc, hhd⟩
    rw [detectCircularDependencies, List.mem_filterMap] at hc
    obtain ⟨t, htmem, hprobe⟩ := hc
    obtain ⟨hhead, hcyc⟩ := probeStack_sound hprobe
    have hts : t = s := by
      rw [hhead] at hhd
      simpa using hhd
    exact hts ▸ hcyc
  · intro h
    obtain ⟨c, hc⟩ := Option.isSome_iff_exists.mp (probeStack_isSome_of_cycle h)
    refine ⟨c, ?_, (probeStack_sound hc).1⟩
    rw [detectCircularDependencies, List.mem_filterMap]
    refine ⟨s, ?_, hc⟩
    obtain ⟨mid, hne, -, -, hch⟩ := h
    cases mid with
    | nil => exact absurd rfl hne
    | cons v mid' => exact Edge.src_mem_allStacks (List.chain'_cons.mp hch).1

/-- Distinct reports of the config-validator detector have distinct starting
stacks (one report per probed stack). -/
lemma detect_heads_nodup (deps : DepMap) :
    ((detectCircularDependencies deps).map List.head?).Nodup := by
  rw [detectCircularDependencies]
  have hgen : ∀ l : List String, l.Nodup →
      ((l.filterMap (probeStack deps)).map List.head?).Nodup := by
    intro l
    induction l with
    | nil => intro _; simp
    | cons a t ih =>
      intro hnd
      obtain ⟨ha, ht⟩ := List.nodup_cons.mp hnd
      rw [List.filterMap_cons]
      cases hp : probeStack deps a with
      | none => exact ih ht
      | some c =>
        rw [List.map_cons, List.nodup_cons]
        refine ⟨?_, ih ht⟩
        intro hmem
        simp only [List.mem_map, List.mem_filterMap] at hmem
        obtain ⟨c', ⟨b, hb, hpb⟩, hhd⟩ := hmem
        have h1 : c'.head? = some b := (probeStack_sound hpb).1
        have h2 : c.head? = some a := (probeStack_sound hp).1
        rw [h1, h2] at hhd
        have : b = a := by simpa using hhd
        exact ha (this ▸ hb)
  exact hgen _ (by rw [allStacks]; exact List.nodup_dedup _)

/-- Fold invariant for the pairwise detector of `validate-dependencies.py`:
no report equals, or is the reverse of, a later report. -/
lemma depPairStep_pairwise {deps : DepMap} {fuel : Nat} :
    ∀ (ps : List (String × String)) (acc : List (List String)),
      List.Pairwise (fun c₁ c₂ => c₁ ≠ c₂ ∧ c₁ ≠ c₂.reverse) acc →
      List.Pairwise (fun c₁ c₂ => c₁ ≠ c₂ ∧ c₁ ≠ c₂.reverse)
        (ps.foldl (depPairStep deps fuel) acc) := by
  intro ps
  induction ps with
  | nil => intro acc h; simpa using h
  | cons ab rest ih =>
    intro acc h
    rw [List.foldl_cons]
    apply ih
    rw [depPairStep]
    split
    · split
      · rename_i hguard
        rw [List.pairwise_append]
        refine ⟨h, by simp, ?_⟩
        intro x hx y hy
        have hy' : y = [ab.1, ab.2] := by simpa using hy
        subst hy'
        have hrev : ([ab.1, ab.2] : List String).reverse = [ab.2, ab.1] := by simp
        constructor
        · intro he; exact hguard.1 (he ▸ hx)
        · intro he; rw [hrev] at he; exact hguard.2 (he ▸ hx)
      · exact h
    · exact h

/-- The pairwise detector never emits a 2-node cycle together with its
rotation or reverse. -/
lemma detectDepPairCycles_pairwise (deps : DepMap) :
    List.Pairwise (fun c₁ c₂ => c₁ ≠ c₂ ∧ c₁ ≠ c₂.reverse) (detectDepPairCycles deps) := by
  rw [detectDepPairCycles]
  exact depPairStep_pairwise _ _ (by simp)

/-- C1 (counterexample): the claim is false as stated for self-dependencies —
the registry with the single dependency `A → A` has a dependency edge (a path
from `A` back to `A` of length 1), yet `detect_circular_dependencies`
reports no cycle: the probe rejects paths of length 1
(`len(path) > 1` at `validate-config.py` line 111). -/
theorem c1_counterexample :
    Edge [("A", [⟨"A", [], none⟩])] "A" "A" ∧
    detectCircularDependencies [("A", [⟨"A", [], none⟩])] = [] := by
  refine ⟨⟨by decide, [⟨"A", [], none⟩], rfl, ⟨"A", [], none⟩, by simp, rfl⟩, rfl⟩

/-- C1 (amended): for every registry, cycle detection reports a cycle
starting at stack `s` iff the dependency graph contains a simple cycle
through `s` of length ≥ 2 (distinct intermediate stacks, none equal to `s`);
a self-dependency alone is not reported, and the acyclic registry
`A→B`, `B→C` yields zero reports. -/
theorem c1_cycle_detection_characterization :
    (∀ (deps : DepMap) (s : String),
      (∃ c ∈ detectCircularDependencies deps, c.head? = some s) ↔ SimpleCycleThrough deps s) ∧
    detectCircularDependencies [("A", [⟨"B", [], none⟩]), ("B", [⟨"C", [], none⟩])] = [] :=
  ⟨detect_reports_iff, rfl⟩

/-- C2 (counterexample): for the registry `A→B→C→A`, the config validator's
cycle detection reports three cycles — one rotation per starting stack —
not exactly one. -/
theorem c2_counterexample :
    detectCircularDependencies
      [("A", [⟨"B", [], none⟩]), ("B", [⟨"C", [], none⟩]), ("C", [⟨"A", [], none⟩])] =
      [["B", "C", "A", "B"], ["C", "A", "B", "C"], ["A", "B", "C", "A"]] ∧
    (detectCircularDependencies
      [("A", [⟨"B", [], none⟩]), ("B", [⟨"C", [], none⟩]), ("C", [⟨"A", [], none⟩])]).length =
      3 :=
  ⟨rfl, rfl⟩

/-- C2 (amended): the config validator emits exactly one report per starting
stack that lies on a simple cycle (reports have pairwise-distinct starting
stacks, and a report starting at `s` exists iff a simple cycle of length ≥ 2
passes through `s` — so a k-stack cycle yields k rotated findings, not one);
the dependency validator's pairwise detector never emits two findings that
are equal or each other's reverse. -/
theorem c2_cycle_report_deduplication :
    (∀ deps : DepMap,
      ((detectCircularDependencies deps).map List.head?).Nodup ∧
      ∀ s, ((∃ c ∈ detectCircularDependencies deps, c.head? = some s) ↔
        SimpleCycleThrough deps s)) ∧
    (∀ deps : DepMap,
      List.Pairwise (fun c₁ c₂ => c₁ ≠ c₂ ∧ c₁ ≠ c₂.reverse) (detectDepPairCycles deps)) :=
  ⟨fun deps => ⟨detect_heads_nodup deps, fun s => detect_reports_iff deps s⟩,
   detectDepPairCycles_pairwise⟩

lemma requiredMissing_injective (stack target : String) :
    Function.Injective (fun n => Diag.requiredMissing stack n target) := by
  intro a b hab
  simpa using hab

lemma optionalMissing_injective (stack target : String) :
    Function.Injective (fun n => Diag.optionalMissing stack n target) := by
  intro a b hab
  simpa using hab

/-- C3: output/dependency consistency per declared dependency.  If the target
stack is not a key of `stack_outputs`, the edge yields exactly the single
"no output definitions" warning and no error; otherwise, with `S` the output
names defined on the target, each name of `requiredOutputs` outside `S` yields
exactly one error, each name of `optionalOutputs` outside `S` exactly one
warning, and names inside `S` yield nothing. -/
theorem c3_output_dependency_consistency (so : OutMap) (stack : String) (dep : StackDependency)
    (hR : dep.required_outputs.Nodup) (hO : (dep.optional_outputs.getD []).Nodup) :
    (lookupA so dep.stack_name = none →
      consistencyForDep so stack dep = ([], [Diag.noOutputsForTarget dep.stack_name])) ∧
    (∀ outs, lookupA so dep.stack_name = some outs →
      (∀ n ∈ dep.required_outputs, n ∉ outs.map StackOutput.name →
        (consistencyForDep so stack dep).1.count
          (Diag.requiredMissing stack n dep.stack_name) = 1) ∧
      (∀ n ∈ dep.optional_outputs.getD [], n ∉ outs.map StackOutput.name →
        (consistencyForDep so stack dep).2.count
          (Diag.optionalMissing stack n dep.stack_name) = 1) ∧
      (∀ n ∈ outs.map StackOutput.name,
        (consistencyForDep so stack dep).1.count
          (Diag.requiredMissing stack n dep.stack_name) = 0 ∧
        (consistencyForDep so stack dep).2.count
          (Diag.optionalMissing stack n dep.stack_name) = 0)) := by
  constructor
  · intro h
    rw [consistencyForDep, h]
  · intro outs h
    have h1 : (consistencyForDep so stack dep).1 =
        (dep.required_outputs.filter (fun n => n ∉ outs.map (fun o => o.name))).map
          (fun n => Diag.requiredMissing stack n dep.stack_name) := by
      rw [consistencyForDep, h]
    have h2 : (consistencyForDep so stack dep).2 =
        ((dep.optional_outputs.getD []).filter (fun n => n ∉ outs.map (fun o => o.name))).map
          (fun n => Diag.optionalMissing stack n dep.stack_name) := by
      rw [consistencyForDep, h]
    refine ⟨?_, ?_, ?_⟩
    · intro n hn hnotin
      rw [h1, List.count_map_of_injective _ _ (requiredMissing_injective stack dep.stack_name)]
      rw [List.count_filter (by simpa using hnotin)]
      exact List.count_eq_one_of_mem hR hn
    · intro n hn hnotin
      rw [h2, List.count_map_of_injective _ _ (optionalMissing_injective stack dep.stack_name)]
      rw [List.count_filter (by simpa using hnotin)]
      exact List.count_eq_one_of_mem hO hn
    · intro n hn
      constructor
      · rw [h1, List.count_map_of_injective _ _ (requiredMissing_injective stack dep.stack_name)]
        rw [List.count_eq_zero]
        intro hmem
        exact (by simpa using (List.mem_filter.mp hmem).2 : n ∉ outs.map (fun o => o.name))
          (by simpa using hn)
      · rw [h2, List.count_map_of_injective _ _ (optionalMissing_injective stack dep.stack_name)]
        rw [List.count_eq_zero]
        intro hmem
        exact (by simpa using (List.mem_filter.mp hmem).2 : n ∉ outs.map (fun o => o.name))
          (by simpa using hn)

/-- C3 witness at a concrete registry: dependency `A → B` requiring `X`,
optional `Z`, with `B` defining only `Y`. -/
theorem c3_witness :
    (["X"] : List String).Nodup ∧ ((some ["Z"] : Option (List String)).getD []).Nodup ∧
    (∀ outs, lookupA [("B", [⟨"Y", "d", "v", "E", none⟩])] "B" = some outs →
      (∀ n ∈ (["X"] : List String), n ∉ outs.map StackOutput.name →
        (consistencyForDep [("B", [⟨"Y", "d", "v", "E", none⟩])] "A"
          ⟨"B", ["X"], some ["Z"]⟩).1.count (Diag.requiredMissing "A" n "B") = 1)) := by
  refine ⟨by decide, by decide, ?_⟩
  intro outs h
  exact ((c3_output_dependency_consistency [("B", [⟨"Y", "d", "v", "E", none⟩])] "A"
    ⟨"B", ["X"], some ["Z"]⟩ (by decide) (by decide)).2 outs h).1

/-- C5: overall verdict of `validate_all` on a well-typed configuration —
`valid` is returned `True` iff the run produced no error-severity finding
(warnings never fail validation). -/
theorem c5_overall_verdict (c : Config) :
    ((validateAll c).1 = true) ↔ (validateAll c).2.1 = [] := by
  have e1 : (validateAll c).1 =
      ((validateOutputDependencyConsistency c).2.1.isEmpty &&
        (validateExportNameUniqueness c.stack_outputs).2.isEmpty &&
        (detectCircularDependencies c.dependencies).isEmpty) := rfl
  have e2 : (validateAll c).2.1 =
      (validateOutputDependencyConsistency c).2.1 ++
        (validateExportNameUniqueness c.stack_outputs).2 ++
        (detectCircularDependencies c.dependencies).map Diag.circular := rfl
  rw [e1, e2]
  simp [List.isEmpty_iff, List.append_eq_nil, List.map_eq_nil_iff, Bool.and_eq_true, and_assoc]

lemma lookupA_append {α : Type} (l₁ l₂ : List (String × α)) (s : String) :
    lookupA (l₁ ++ l₂) s = (lookupA l₁ s).or (lookupA l₂ s) := by
  induction l₁ with
  | nil => simp [lookupA]
  | cons kv rest ih =>
    obtain ⟨k, v⟩ := kv
    by_cases hk : k = s
    · simp [lookupA, hk]
    · simp [lookupA, hk, ih]

lemma collisionCount_cons_skip {e s pstack : String} {pout : StackOutput}
    {rest : List (String × StackOutput)} (hne : pout.export_name ≠ e) :
    collisionCount ((pstack, pout) :: rest) e s = collisionCount rest e s := by
  simp [collisionCount, List.filter_cons, hne]

lemma collisionCount_cons_hit {e s pstack : String} {pout : StackOutput}
    {rest : List (String × StackOutput)} (heq : pout.export_name = e) :
    collisionCount ((pstack, pout) :: rest) e s =
      collisionCount rest e s + (if pstack = s then 1 else 0) := by
  by_cases hps : pstack = s
  · simp [collisionCount, List.filter_cons, heq, hps]
  · simp [collisionCount, List.filter_cons, heq, hps]

lemma firstOwner_cons_skip {e pstack : String} {pout : StackOutput}
    {rest : List (String × StackOutput)} (hne : pout.export_name ≠ e) :
    firstOwner ((pstack, pout) :: rest) e = firstOwner rest e := by
  simp [firstOwner, List.find?_cons, hne]

lemma firstOwner_cons_hit {e pstack : String} {pout : StackOutput}
    {rest : List (String × StackOutput)} (heq : pout.export_name = e) :
    firstOwner ((pstack, pout) :: rest) e = some pstack := by
  simp [firstOwner, List.find?_cons, heq]

lemma uniqGo_cons_empty {pstack : String} {pout : StackOutput}
    {rest : List (String × StackOutput)} {seen : List (String × String)}
    (hpe : pout.export_name = "") :
    uniqGo ((pstack, pout) :: rest) seen = uniqGo rest seen := by
  rw [uniqGo, if_pos hpe]

lemma uniqGo_cons_seen {pstack : String} {pout : StackOutput}
    {rest : List (String × StackOutput)} {seen : List (String × String)} {o2 : String}
    (hpe : pout.export_name ≠ "") (hlk : lookupA seen pout.export_name = some o2) :
    uniqGo ((pstack, pout) :: rest) seen =
      Diag.duplicateExport pout.export_name o2 pstack :: uniqGo rest seen := by
  rw [uniqGo, if_neg hpe, hlk]

lemma uniqGo_cons_unseen {pstack : String} {pout : StackOutput}
    {rest : List (String × StackOutput)} {seen : List (String × String)}
    (hpe : pout.export_name ≠ "") (hlk : lookupA seen pout.export_name = none) :
    uniqGo ((pstack, pout) :: rest) seen =
      uniqGo rest (seen ++ [(pout.export_name, pstack)]) := by
  rw [uniqGo, if_neg hpe, hlk]

/-- Once `e` is on record with owner `o`, every later pair carrying export
name `e` contributes exactly one duplicate-export error naming `o` and its
own stack. -/
lemma uniqGo_count_of_seen {e owner s : String} :
    ∀ (pairs : List (String × StackOutput)) (seen : List (String × String)) (o : String),
      e ≠ "" →
      lookupA seen e = some o →
      (uniqGo pairs seen).count (Diag.duplicateExport e owner s) =
        if o = owner then collisionCount pairs e s else 0 := by
  intro pairs
  induction pairs with
  | nil =>
    intro seen o he h
    simp [uniqGo, collisionCount]
  | cons p rest ih =>
    intro seen o he h
    obtain ⟨pstack, pout⟩ := p
    by_cases hpe : pout.export_name = ""
    · rw [uniqGo_cons_empty hpe, ih seen o he h,
        collisionCount_cons_skip (by rw [hpe]; exact Ne.symm he)]
    · by_cases hpeq : pout.export_name = e
      · have hlk : lookupA seen pout.export_name = some o := by rw [hpeq]; exact h
        rw [uniqGo_cons_seen hpe hlk, List.count_cons, ih seen o he h,
          collisionCount_cons_hit hpeq]
        by_cases ho : o = owner
        · subst ho
          by_cases hps : pstack = s
          · simp [hpeq, hps]
          · simp [hpeq, hps]
        · simp [ho]
      · have hopt : lookupA seen pout.export_name = none ∨
            ∃ o2, lookupA seen pout.export_name = some o2 := by
          cases lookupA seen pout.export_name
          · exact Or.inl rfl
          · exact Or.inr ⟨_, rfl⟩
        rcases hopt with hlk | ⟨o2, hlk⟩
        · rw [uniqGo_cons_unseen hpe hlk,
            ih (seen ++ [(pout.export_name, pstack)]) o he (by rw [lookupA_append, h]; rfl),
            collisionCount_cons_skip hpeq]
        · rw [uniqGo_cons_seen hpe hlk, List.count_cons, ih seen o he h,
            collisionCount_cons_skip hpeq]
          simp [hpeq]

/-- Before `e` is on record, the first pair carrying `e` is recorded without
a finding, and every later pair carrying `e` yields exactly one error naming
that first owner and the new offender. -/
lemma uniqGo_count_of_unseen {e owner s : String} :
    ∀ (pairs : List (String × StackOutput)) (seen : List (String × String)),
      e ≠ "" →
      lookupA seen e = none →
      (uniqGo pairs seen).count (Diag.duplicateExport e owner s) =
        if firstOwner pairs e = some owner then
          collisionCount pairs e s - (if owner = s then 1 else 0)
        else 0 := by
  intro pairs
  induction pairs with
  | nil =>
    intro seen he h
    simp [uniqGo, firstOwner]
  | cons p rest ih =>
    intro seen he h
    obtain ⟨pstack, pout⟩ := p
    by_cases hpe : pout.export_name = ""
    · rw [uniqGo_cons_empty hpe, ih seen he h,
        firstOwner_cons_skip (by rw [hpe]; exact Ne.symm he),
        collisionCount_cons_skip (by rw [hpe]; exact Ne.symm he)]
    · by_cases hpeq : pout.export_name = e
      · have hlk : lookupA seen pout.export_name = none := by rw [hpeq]; exact h
        rw [uniqGo_cons_unseen hpe hlk,
          uniqGo_count_of_seen rest (seen ++ [(pout.export_name, pstack)]) pstack he
            (by rw [lookupA_append, h, hpeq]; simp [lookupA]),
          firstOwner_cons_hit hpeq, collisionCount_cons_hit hpeq]
        by_cases hpo : pstack = owner
        · subst hpo
          by_cases hps : pstack = s
          · simp [hps]
          · simp [hps]
        · rw [if_neg hpo, if_neg (by simpa using hpo)]
      · have hopt : lookupA seen pout.export_name = none ∨
            ∃ o2, lookupA seen pout.export_name = some o2 := by
          cases lookupA seen pout.export_name
          · exact Or.inl rfl
          · exact Or.inr ⟨_, rfl⟩
        rcases hopt with hlk | ⟨o2, hlk⟩
        · rw [uniqGo_cons_unseen hpe hlk,
            ih (seen ++ [(pout.export_name, pstack)])
              he (by rw [lookupA_append, h]; simp [lookupA, hpeq]),
            firstOwner_cons_skip hpeq, collisionCount_cons_skip hpeq]
        · rw [uniqGo_cons_seen hpe hlk, List.count_cons, ih seen he h,
            firstOwner_cons_skip hpeq, collisionCount_cons_skip hpeq]
          simp [hpeq]

/-- C4: export-name uniqueness reporting.  For every registry and every
non-empty export name `e`, the number of duplicate-export errors attributing
`e` to on-record stack `owner` and offender `s` is: zero unless `owner` owns
the first scanned output named `e`; otherwise one error per scanned pair of
`s` carrying `e`, except that the first-seen pair itself (when owned by `s`)
draws no finding. -/
theorem c4_export_name_uniqueness (so : OutMap) (e owner s : String) (he : e ≠ "") :
    (validateExportNameUniqueness so).2.count (Diag.duplicateExport e owner s) =
      if firstOwner (exportPairs so) e = some owner then
        collisionCount (exportPairs so) e s - (if owner = s then 1 else 0)
      else 0 :=
  uniqGo_count_of_unseen (exportPairs so) [] he rfl

/-- C4 witness: three stacks colliding on `proj-dev-VPC-ID`; the error
attributed to `(S1, S2)` is counted by the theorem's formula. -/
theorem c4_witness :
    ("proj-dev-VPC-ID" : String) ≠ "" ∧
    (validateExportNameUniqueness c4WitnessRegistry).2.count
        (Diag.duplicateExport "proj-dev-VPC-ID" "S1" "S2") =
      (if firstOwner (exportPairs c4WitnessRegistry) "proj-dev-VPC-ID" = some "S1" then
        collisionCount (exportPairs c4WitnessRegistry) "proj-dev-VPC-ID" "S2" -
          (if ("S1" : String) = "S2" then 1 else 0)
      else 0) :=
  ⟨by decide, c4_export_name_uniqueness c4WitnessRegistry "proj-dev-VPC-ID" "S1" "S2" (by decide)⟩

/-- C6: orchestrator aggregation.  Under the per-pass execution contract
(`is_valid` false exactly for `FAIL`/`ERROR` passes, `SKIPPED` passes with
zero counters), the summary status is `FAIL` if any pass failed or errored,
else `WARNING` if any warnings were counted, else `PASS`; and a `SKIPPED`
pass contributes nothing to the error/warning totals. -/
theorem c6_orchestrator_aggregation (s : SyntaxResult) (p : ParamResult) (w : WaResult)
    (hs : s.is_valid = false ↔ (s.status = .FAIL ∨ s.status = .ERROR))
    (hp : p.is_valid = false ↔ (p.status = .FAIL ∨ p.status = .ERROR))
    (hw : w.is_valid = false ↔ (w.status = .FAIL ∨ w.status = .ERROR))
    (hss : s.status = .SKIPPED → s.error_count = 0 ∧ s.warning_count = 0)
    (hps : p.status = .SKIPPED → p.error_count = 0 ∧ p.warning_count = 0)
    (hws : w.status = .SKIPPED → w.error_count = 0 ∧ w.warning_count = 0) :
    ((createValidationSummary s p w).overall_status =
      if (s.status = .FAIL ∨ s.status = .ERROR) ∨ (p.status = .FAIL ∨ p.status = .ERROR) ∨
          (w.status = .FAIL ∨ w.status = .ERROR) then Overall.FAIL
      else if 0 < s.warning_count + p.warning_count + w.warning_count then Overall.WARNING
      else Overall.PASS) ∧
    (s.status = .SKIPPED →
      (createValidationSummary s p w).errors = p.error_count + w.error_count ∧
      (createValidationSummary s p w).warnings = p.warning_count + w.warning_count) ∧
    (p.status = .SKIPPED →
      (createValidationSummary s p w).errors = s.error_count + w.error_count ∧
      (createValidationSummary s p w).warnings = s.warning_count + w.warning_count) ∧
    (w.status = .SKIPPED →
      (createValidationSummary s p w).errors = s.error_count + p.error_count ∧
      (createValidationSummary s p w).warnings = s.warning_count + p.warning_count) := by
  have hsv : s.is_valid = true ↔ ¬(s.status = .FAIL ∨ s.status = .ERROR) := by
    rw [← hs]; cases s.is_valid <;> simp
  have hpv : p.is_valid = true ↔ ¬(p.status = .FAIL ∨ p.status = .ERROR) := by
    rw [← hp]; cases p.is_valid <;> simp
  have hwv : w.is_valid = true ↔ ¬(w.status = .FAIL ∨ w.status = .ERROR) := by
    rw [← hw]; cases w.is_valid <;> simp
  have h0 : (createValidationSummary s p w).overall_status =
      if s.is_valid && p.is_valid && w.is_valid then
        (if (decide (s.warning_count > 0) || decide (p.warning_count > 0) ||
            decide (w.warning_count > 0)) then Overall.WARNING else Overall.PASS)
      else Overall.FAIL := rfl
  refine ⟨?_, ?_, ?_, ?_⟩
  · rw [h0]
    by_cases hbad : (s.status = .FAIL ∨ s.status = .ERROR) ∨
        (p.status = .FAIL ∨ p.status = .ERROR) ∨ (w.status = .FAIL ∨ w.status = .ERROR)
    · rw [if_pos hbad]
      have hnot : ¬(s.is_valid && p.is_valid && w.is_valid) = true := by
        rw [Bool.and_eq_true, Bool.and_eq_true]
        rintro ⟨⟨h1, h2⟩, h3⟩
        rcases hbad with hb | hb | hb
        · exact (hsv.mp h1) hb
        · exact (hpv.mp h2) hb
        · exact (hwv.mp h3) hb
      rw [if_neg hnot]
    · rw [if_neg hbad]
      have h1 : s.is_valid = true := hsv.mpr (fun hb => hbad (Or.inl hb))
      have h2 : p.is_valid = true := hpv.mpr (fun hb => hbad (Or.inr (Or.inl hb)))
      have h3 : w.is_valid = true := hwv.mpr (fun hb => hbad (Or.inr (Or.inr hb)))
      rw [if_pos (by rw [Bool.and_eq_true, Bool.and_eq_true]; exact ⟨⟨h1, h2⟩, h3⟩)]
      by_cases hwarn : 0 < s.warning_count + p.warning_count + w.warning_count
      · rw [if_pos hwarn]
        rw [if_pos (by simp only [Bool.or_eq_true, decide_eq_true_eq]; omega)]
      · rw [if_neg hwarn]
        rw [if_neg (by simp only [Bool.or_eq_true, decide_eq_true_eq]; omega)]
  · intro hsk
    obtain ⟨he0, hw0⟩ := hss hsk
    constructor
    · show s.error_count + p.error_count + w.error_count = p.error_count + w.error_count
      omega
    · show s.warning_count + p.warning_count + w.warning_count =
        p.warning_count + w.warning_count
      omega
  · intro hsk
    obtain ⟨he0, hw0⟩ := hps hsk
    constructor
    · show s.error_count + p.error_count + w.error_count = s.error_count + w.error_count
      omega
    · show s.warning_count + p.warning_count + w.warning_count =
        s.warning_count + w.warning_count
      omega
  · intro hsk
    obtain ⟨he0, hw0⟩ := hws hsk
    constructor
    · show s.error_count + p.error_count + w.error_count = s.error_count + p.error_count
      omega
    · show s.warning_count + p.warning_count + w.warning_count =
        s.warning_count + p.warning_count
      omega

/-- C6 witness: statuses `{PASS, SKIPPED, PASS}` with warning counts
`{2, 0, 0}`, instantiating the aggregation formula. -/
theorem c6_witness :
    (createValidationSummary c6SyntaxExample c6ParamExample c6WaExample).overall_status =
      if (c6SyntaxExample.status = .FAIL ∨ c6SyntaxExample.status = .ERROR) ∨
          (c6ParamExample.status = .FAIL ∨ c6ParamExample.status = .ERROR) ∨
          (c6WaExample.status = .FAIL ∨ c6WaExample.status = .ERROR) then Overall.FAIL
      else if 0 < c6SyntaxExample.warning_count + c6ParamExample.warning_count +
          c6WaExample.warning_count then Overall.WARNING
      else Overall.PASS :=
  (c6_orchestrator_aggregation c6SyntaxExample c6ParamExample c6WaExample
    (by decide) (by decide) (by decide) (by decide) (by decide) (by decide)).1

/-- C9: pass isolation.  Each pass slot of the summary is determined by its
own pass alone; a raised exception in any pass becomes an `ERROR` result
carrying exactly one synthetic error finding (error count 1) embedding the
exception text; and even with every pass raising, the orchestration yields a
complete summary (all three slots `ERROR`, overall `FAIL`, three errors). -/
theorem c9_pass_isolation :
    (∀ (i1 : Except String (Bool × List ValidationIssue)) (pp cp : Option String)
        (i2 : Except String ParamUnderlying) (i3 : Except String (Bool × List String)),
      (runComprehensiveValidation i1 pp cp i2 i3).syntax_validation = runSyntaxValidation i1 ∧
      (runComprehensiveValidation i1 pp cp i2 i3).parameter_validation =
        runParameterValidation pp cp i2 ∧
      (runComprehensiveValidation i1 pp cp i2 i3).well_architected_validation =
        runWellArchitectedValidation i3) ∧
    (∀ e, runSyntaxValidation (.error e) =
      ⟨.ERROR, false, [⟨.error, "system", "構文検証中にエラーが発生: " ++ e⟩], 1, 0, 0⟩) ∧
    (∀ pPath cp e, runParameterValidation (some pPath) cp (.error e) =
      ⟨.ERROR, false, [], ["パラメータ検証中にエラーが発生: " ++ e], 1, 0⟩) ∧
    (∀ e, runWellArchitectedValidation (.error e) =
      ⟨.ERROR, false, ["Well-Architected検証中にエラーが発生: " ++ e], 1, 0, 0⟩) ∧
    (∀ e1 e2 e3 pPath cp,
      (runComprehensiveValidation (.error e1) (some pPath) cp (.error e2)
        (.error e3)).overall_status = Overall.FAIL ∧
      (runComprehensiveValidation (.error e1) (some pPath) cp (.error e2)
        (.error e3)).errors = 3) :=
  ⟨fun _ _ _ _ _ => ⟨rfl, rfl, rfl⟩, fun _ => rfl, fun _ _ _ => rfl, fun _ => rfl,
   fun _ _ _ _ _ => ⟨rfl, rfl⟩⟩

lemma registerStackOutputs_notmem {acc : OutMap} {k : String} {outs : List StackOutput}
    (h : k ∉ acc.map Prod.fst) : registerStackOutputs acc k outs = acc ++ [(k, outs)] := by
  induction acc with
  | nil => rfl
  | cons kv rest ih =>
    obtain ⟨k0, v0⟩ := kv
    simp only [List.map_cons, List.mem_cons, not_or] at h
    rw [registerStackOutputs, if_neg (fun heq => h.1 heq.symm), ih h.2]
    rfl

lemma registerDependency_notmem {acc : DepMap} {k : String} {d : StackDependency}
    (h : k ∉ acc.map Prod.fst) : registerDependency acc k d = acc ++ [(k, [d])] := by
  induction acc with
  | nil => rfl
  | cons kv rest ih =>
    obtain ⟨k0, v0⟩ := kv
    simp only [List.map_cons, List.mem_cons, not_or] at h
    rw [registerDependency, if_neg (fun heq => h.1 heq.symm), ih h.2]
    rfl

lemma registerDependency_last {k : String} {cur : List StackDependency} {d : StackDependency} :
    ∀ {acc : DepMap}, k ∉ acc.map Prod.fst →
      registerDependency (acc ++ [(k, cur)]) k d = acc ++ [(k, cur ++ [d])] := by
  intro acc
  induction acc with
  | nil =>
    intro _
    simp [registerDependency]
  | cons kv rest ih =>
    intro h
    obtain ⟨k0, v0⟩ := kv
    simp only [List.map_cons, List.mem_cons, not_or] at h
    rw [List.cons_append, registerDependency, if_neg (fun heq => h.1 heq.symm), ih h.2]
    rfl

lemma foldl_registerDependency_mid {k : String} (ds : List SnapDep) :
    ∀ (acc : DepMap) (cur : List StackDependency), k ∉ acc.map Prod.fst →
      ds.foldl (fun a d => registerDependency a k
        ⟨d.stack_name, d.required_outputs, some d.optional_outputs⟩) (acc ++ [(k, cur)]) =
      acc ++ [(k, cur ++ ds.map (fun d =>
        (⟨d.stack_name, d.required_outputs, some d.optional_outputs⟩ : StackDependency)))] := by
  induction ds with
  | nil =>
    intro acc cur _
    simp
  | cons d rest ih =>
    intro acc cur h
    rw [List.foldl_cons, registerDependency_last h,
      ih acc (cur ++ [(⟨d.stack_name, d.required_outputs,
        some d.optional_outputs⟩ : StackDependency)]) h]
    simp

lemma foldl_registerDependency_new {k : String} {ds : List SnapDep} (hne : ds ≠ [])
    {acc : DepMap} (h : k ∉ acc.map Prod.fst) :
    ds.foldl (fun a d => registerDependency a k
      ⟨d.stack_name, d.required_outputs, some d.optional_outputs⟩) acc =
    acc ++ [(k, ds.map (fun d =>
      (⟨d.stack_name, d.required_outputs, some d.optional_outputs⟩ : StackDependency)))] := by
  cases ds with
  | nil => exact absurd rfl hne
  | cons d rest =>
    rw [List.foldl_cons, registerDependency_notmem h,
      foldl_registerDependency_mid rest acc
        [⟨d.stack_name, d.required_outputs, some d.optional_outputs⟩] h]
    simp

lemma importDeps_rebuild :
    ∀ (entries : List (String × List SnapDep)) (acc : DepMap),
      (entries.map Prod.fst).Nodup →
      (∀ kv ∈ entries, kv.1 ∉ acc.map Prod.fst) →
      (∀ kv ∈ entries, kv.2 ≠ []) →
      entries.foldl (fun a kv => kv.2.foldl (fun a2 d =>
        registerDependency a2 kv.1
          ⟨d.stack_name, d.required_outputs, some d.optional_outputs⟩) a) acc =
      acc ++ entries.map (fun kv => (kv.1, kv.2.map (fun d =>
        (⟨d.stack_name, d.required_outputs, some d.optional_outputs⟩ : StackDependency)))) := by
  intro entries
  induction entries with
  | nil =>
    intro acc _ _ _
    simp
  | cons kv rest ih =>
    intro acc hnodup hdisj hne
    rw [List.foldl_cons,
      foldl_registerDependency_new (hne kv (by simp)) (hdisj kv (by simp))]
    rw [ih _ ((List.nodup_cons.mp hnodup).2) ?_ (fun kv2 hm => hne kv2 (by simp [hm]))]
    · simp
    · intro kv2 hm
      simp only [List.map_append, List.mem_append, not_or]
      refine ⟨hdisj kv2 (by simp [hm]), ?_⟩
      simp only [List.map_cons, List.map_nil, List.mem_singleton]
      intro heq
      exact (List.nodup_cons.mp hnodup).1 (heq ▸ List.mem_map_of_mem Prod.fst hm)

lemma importOuts_rebuild :
    ∀ (entries : List (String × List SnapOutput)) (acc : OutMap),
      (entries.map Prod.fst).Nodup →
      (∀ kv ∈ entries, kv.1 ∉ acc.map Prod.fst) →
      entries.foldl (fun a kv => registerStackOutputs a kv.1 (kv.2.map (fun o =>
        ⟨o.name, o.description, o.value, o.export_name, o.conditions⟩))) acc =
      acc ++ entries.map (fun kv => (kv.1, kv.2.map (fun o =>
        (⟨o.name, o.description, o.value, o.export_name, o.conditions⟩ : StackOutput)))) := by
  intro entries
  induction entries with
  | nil =>
    intro acc _ _
    simp
  | cons kv rest ih =>
    intro acc hnodup hdisj
    rw [List.foldl_cons, registerStackOutputs_notmem (hdisj kv (by simp))]
    rw [ih _ ((List.nodup_cons.mp hnodup).2) ?_]
    · simp
    · intro kv2 hm
      simp only [List.map_append, List.mem_append, not_or]
      refine ⟨hdisj kv2 (by simp [hm]), ?_⟩
      simp only [List.map_cons, List.map_nil, List.mem_singleton]
      intro heq
      exact (List.nodup_cons.mp hnodup).1 (heq ▸ List.mem_map_of_mem Prod.fst hm)

lemma map_map_congr_id {α β : Type} (l : List α) (f : α → β) (g : β → α)
    (h : ∀ x ∈ l, g (f x) = x) : (l.map f).map g = l := by
  induction l with
  | nil => rfl
  | cons a t ih =>
    rw [List.map_cons, List.map_cons, h a (by simp),
      ih (fun x hm => h x (List.mem_cons_of_mem _ hm))]

lemma outs_map_roundtrip (outs : List StackOutput) :
    (outs.map (fun o =>
      (⟨o.name, o.description, o.value, o.export_name, o.conditions⟩ : SnapOutput))).map
      (fun o => (⟨o.name, o.description, o.value, o.export_name, o.conditions⟩ : StackOutput)) =
      outs := by
  induction outs with
  | nil => rfl
  | cons o t ih =>
    rw [List.map_cons, List.map_cons, ih]

lemma deps_map_roundtrip (ds : List StackDependency) (h : ∀ d ∈ ds, d.optional_outputs ≠ none) :
    (ds.map (fun d =>
      (⟨d.stack_name, d.required_outputs, d.optional_outputs.getD []⟩ : SnapDep))).map
      (fun d => (⟨d.stack_name, d.required_outputs, some d.optional_outputs⟩ : StackDependency)) =
      ds := by
  induction ds with
  | nil => rfl
  | cons d t ih =>
    rw [List.map_cons, List.map_cons, ih (fun x hm => h x (List.mem_cons_of_mem _ hm))]
    obtain ⟨sn, ro, oo⟩ := d
    cases oo with
    | none => exact absurd rfl (h ⟨sn, ro, none⟩ (List.mem_cons_self _ _))
    | some l => rfl

/-- C7 (amended): the snapshot/restore round trip is field-for-field lossless
for every registry in which each dependency's `optional_outputs` is set (not
absent) and each dependency map entry is non-empty (all registries reachable
through `register_dependency` are); in general the round trip rewrites an
absent `optional_outputs` into an empty list, so the absent-vs-empty
distinction is NOT preserved. -/
theorem c7_snapshot_restore_roundtrip (r : Config)
    (hOutKeys : (r.stack_outputs.map Prod.fst).Nodup)
    (hDepKeys : (r.dependencies.map Prod.fst).Nodup)
    (hNonempty : ∀ kv ∈ r.dependencies, kv.2 ≠ [])
    (hOpt : ∀ kv ∈ r.dependencies, ∀ d ∈ kv.2, d.optional_outputs ≠ none) :
    importConfiguration (exportConfiguration r) = r := by
  cases r with
  | mk so deps =>
    have h1 : (importConfiguration (exportConfiguration ⟨so, deps⟩)).stack_outputs = so := by
      show ((exportConfiguration ⟨so, deps⟩).stack_outputs).foldl _ [] = so
      rw [importOuts_rebuild _ []
        (by simpa [exportConfiguration, List.map_map, Function.comp] using hOutKeys)
        (by intro kv _; simp)]
      simp only [List.nil_append]
      exact map_map_congr_id so _ _ (fun kv _ => by
        obtain ⟨k, outs⟩ := kv
        exact congrArg (Prod.mk k) (outs_map_roundtrip outs))
    have h2 : (importConfiguration (exportConfiguration ⟨so, deps⟩)).dependencies = deps := by
      show ((exportConfiguration ⟨so, deps⟩).dependencies).foldl _ [] = deps
      rw [importDeps_rebuild _ []
        (by simpa [exportConfiguration, List.map_map, Function.comp] using hDepKeys)
        (by intro kv _; simp)
        (by
          intro kv hm
          simp only [exportConfiguration, List.mem_map] at hm
          obtain ⟨kv0, hm0, rfl⟩ := hm
          simp only [ne_eq, List.map_eq_nil_iff]
          exact hNonempty kv0 hm0)]
      simp only [List.nil_append]
      exact map_map_congr_id deps _ _ (fun kv hm => by
        obtain ⟨k, ds⟩ := kv
        exact congrArg (Prod.mk k) (deps_map_roundtrip ds (hOpt (k, ds) hm)))
    have heta : importConfiguration (exportConfiguration ⟨so, deps⟩) =
        ⟨(importConfiguration (exportConfiguration ⟨so, deps⟩)).stack_outputs,
         (importConfiguration (exportConfiguration ⟨so, deps⟩)).dependencies⟩ := rfl
    rw [heta, h1, h2]

/-- C7 (counterexample): a dependency whose `optional_outputs` was never set
comes back from the round trip with an empty list instead — the
absent-vs-empty distinction is destroyed by `dep.optional_outputs or []`
in `export_configuration`. -/
theorem c7_counterexample :
    importConfiguration (exportConfiguration ⟨[], [("A", [⟨"B", ["X"], none⟩])]⟩) =
      (⟨[], [("A", [⟨"B", ["X"], some []⟩])]⟩ : Config) ∧
    importConfiguration (exportConfiguration ⟨[], [("A", [⟨"B", ["X"], none⟩])]⟩) ≠
      (⟨[], [("A", [⟨"B", ["X"], none⟩])]⟩ : Config) :=
  ⟨rfl, by decide⟩

/-- C7 witness: a concrete registry with all `optional_outputs` set
round-trips losslessly. -/
theorem c7_witness :
    (c7WitnessRegistry.stack_outputs.map Prod.fst).Nodup ∧
    (c7WitnessRegistry.dependencies.map Prod.fst).Nodup ∧
    (∀ kv ∈ c7WitnessRegistry.dependencies, kv.2 ≠ []) ∧
    (∀ kv ∈ c7WitnessRegistry.dependencies, ∀ d ∈ kv.2, d.optional_outputs ≠ none) ∧
    importConfiguration (exportConfiguration c7WitnessRegistry) = c7WitnessRegistry :=
  ⟨by decide, by decide, by decide, by decide,
   c7_snapshot_restore_roundtrip c7WitnessRegistry (by decide) (by decide) (by decide)
     (by decide)⟩

/-- C8: the validator does raise for malformed-but-parseable input.  The
configuration registering `B` with an empty output list and declaring a
dependency of `A` on `B` with `optional_outputs: null` passes
`validate_dependencies` without any finding (null is explicitly tolerated at
`validate-config.py` line 99), yet
`validate_output_dependency_consistency` raises `TypeError` when iterating
the null `optional_outputs` (line 169), so `validate_all` propagates the
exception instead of producing diagnostics. -/
theorem c8_consistency_check_raises :
    validateDependenciesDyn c8Dependencies = .ok (true, []) ∧
    validateOutputDependencyConsistencyDyn c8FailingConfig =
      .error (.typeError "NoneType object is not iterable") :=
  ⟨rfl, rfl⟩

lemma lookupA_registerStackOutputs (so : OutMap) (k : String) (v : List StackOutput)
    (t : String) :
    lookupA (registerStackOutputs so k v) t = if t = k then some v else lookupA so t := by
  induction so with
  | nil =>
    by_cases hk : k = t
    · subst hk
      simp [registerStackOutputs, lookupA]
    · have hk2 : ¬(t = k) := fun h => hk h.symm
      simp [registerStackOutputs, lookupA, hk, hk2]
  | cons kv rest ih =>
    obtain ⟨k0, v0⟩ := kv
    by_cases hk0 : k0 = k
    · subst hk0
      by_cases ht : k0 = t
      · subst ht
        simp [registerStackOutputs, lookupA]
      · have ht2 : ¬(t = k0) := fun h => ht h.symm
        simp [registerStackOutputs, lookupA, ht, ht2]
    · by_cases ht : k0 = t
      · subst ht
        simp [registerStackOutputs, lookupA, hk0]
      · have ht2 : ¬(t = k0) := fun h => ht h.symm
        simp [registerStackOutputs, lookupA, hk0, ht, ht2, ih]

lemma consistencyForDep_none {so : OutMap} {stack : String} {dep : StackDependency}
    (hlk : lookupA so dep.stack_name = none) :
    consistencyForDep so stack dep = ([], [Diag.noOutputsForTarget dep.stack_name]) := by
  rw [consistencyForDep, hlk]

lemma consistencyForDep_some {so : OutMap} {stack : String} {dep : StackDependency}
    {outs : List StackOutput} (hlk : lookupA so dep.stack_name = some outs) :
    consistencyForDep so stack dep =
      ((dep.required_outputs.filter (fun n => n ∉ outs.map (fun o => o.name))).map
        (fun n => Diag.requiredMissing stack n dep.stack_name),
       ((dep.optional_outputs.getD []).filter (fun n => n ∉ outs.map (fun o => o.name))).map
        (fun n => Diag.optionalMissing stack n dep.stack_name)) := by
  rw [consistencyForDep, hlk]

/-- Adding an output whose name a stack already defines leaves every
per-edge consistency finding unchanged: the check only reads the set of
output names. -/
lemma consistencyForDep_dup_invariant {so : OutMap} {stack : String}
    {outs : List StackOutput} {newOut : StackOutput}
    (hlk : lookupA so stack = some outs)
    (hdup : newOut.name ∈ outs.map StackOutput.name) (st : String) (d : StackDependency) :
    consistencyForDep (registerStackOutputs so stack (outs ++ [newOut])) st d =
      consistencyForDep so st d := by
  have hdup2 : newOut.name ∈ outs.map (fun o => o.name) := by simpa using hdup
  by_cases ht : d.stack_name = stack
  · have hlk1 : lookupA (registerStackOutputs so stack (outs ++ [newOut])) d.stack_name =
        some (outs ++ [newOut]) := by
      rw [lookupA_registerStackOutputs, if_pos ht]
    have hlk2 : lookupA so d.stack_name = some outs := by rw [ht]; exact hlk
    rw [consistencyForDep_some hlk1, consistencyForDep_some hlk2]
    have h1 : ∀ R : List String,
        R.filter (fun n => n ∉ (outs ++ [newOut]).map (fun o => o.name)) =
        R.filter (fun n => n ∉ outs.map (fun o => o.name)) := by
      intro R
      refine List.filter_congr ?_
      intro x _
      rw [decide_eq_decide]
      constructor
      · intro hx hmem
        exact hx (by simp only [List.map_append, List.mem_append]; exact Or.inl hmem)
      · intro hx hmem
        have hmem2 : x ∈ outs.map (fun o => o.name) ∨ x = newOut.name := by
          simpa [List.map_append] using hmem
        rcases hmem2 with h | h
        · exact hx h
        · exact hx (h ▸ hdup2)
    rw [h1 d.required_outputs, h1 (d.optional_outputs.getD [])]
  · have hlk1 : lookupA (registerStackOutputs so stack (outs ++ [newOut])) d.stack_name =
        lookupA so d.stack_name := by
      rw [lookupA_registerStackOutputs, if_neg ht]
    rw [consistencyForDep, consistencyForDep, hlk1]

/-- C10 (amended): a duplicate-named output is invisible to the
output/dependency consistency check — appending to a stack an output whose
name that stack already defines changes no consistency finding (the check
reads only the set of names).  The overall verdict, however, is NOT
preserved in general: the added output still feeds the export-uniqueness and
naming checks (see the counterexample, where the duplicate's colliding
export name flips `validate_all` to `False`), and no check reports the name
duplication itself. -/
theorem c10_duplicate_output_names (so : OutMap) (deps : DepMap) (stack : String)
    (outs : List StackOutput) (newOut : StackOutput)
    (hlk : lookupA so stack = some outs)
    (hdup : newOut.name ∈ outs.map StackOutput.name) :
    validateOutputDependencyConsistency ⟨registerStackOutputs so stack (outs ++ [newOut]), deps⟩ =
      validateOutputDependencyConsistency ⟨so, deps⟩ := by
  have hcfd : consistencyForDep (registerStackOutputs so stack (outs ++ [newOut])) =
      consistencyForDep so :=
    funext (fun st => funext (fun d => consistencyForDep_dup_invariant hlk hdup st d))
  rw [validateOutputDependencyConsistency, validateOutputDependencyConsistency]
  rw [hcfd]

/-- C10 (counterexample): the overall verdict is not invariant under adding
a duplicate-named output — `c10BaseConfig` validates, but appending to `B` a
second output named `X` with the already-used export name `E` makes
`validate_all` fail (through the export-uniqueness check). -/
theorem c10_counterexample :
    (validateAll c10BaseConfig).1 = true ∧
    c10DupConfig.stack_outputs =
      registerStackOutputs c10BaseConfig.stack_outputs "B"
        ([⟨"X", "desc", "val", "E", none⟩] ++ [c10AddedOutput]) ∧
    c10DupConfig.dependencies = c10BaseConfig.dependencies ∧
    c10AddedOutput.name ∈
      [(⟨"X", "desc", "val", "E", none⟩ : StackOutput)].map StackOutput.name ∧
    (validateAll c10DupConfig).1 = false :=
  ⟨rfl, rfl, rfl, by decide, rfl⟩

/-- C10 witness: the invariance theorem applied at the concrete base
configuration and duplicate output. -/
theorem c10_witness :
    lookupA c10BaseConfig.stack_outputs "B" = some [⟨"X", "desc", "val", "E", none⟩] ∧
    c10AddedOutput.name ∈
      [(⟨"X", "desc", "val", "E", none⟩ : StackOutput)].map StackOutput.name ∧
    validateOutputDependencyConsistency
        ⟨registerStackOutputs c10BaseConfig.stack_outputs "B"
          ([⟨"X", "desc", "val", "E", none⟩] ++ [c10AddedOutput]),
         c10BaseConfig.dependencies⟩ =
      validateOutputDependencyConsistency
        ⟨c10BaseConfig.stack_outputs, c10BaseConfig.dependencies⟩ :=
  ⟨rfl, by decide,
   c10_duplicate_output_names c10BaseConfig.stack_outputs c10BaseConfig.dependencies "B"
     [⟨"X", "desc", "val", "E", none⟩] c10AddedOutput rfl (by decide)⟩
